import Mathlib

/-! Verification of `main.cpp` (mqtt-subscribe).

The repository's only source file is the entry point `main`, a sequence of six
calls into the Qt framework:

```
QApplication app(argc, argv);
app.setWindowIcon(QIcon(":/MJC.ico"));
QQmlApplicationEngine engine;
QObject::connect(&engine, &QQmlApplicationEngine::objectCreationFailed, &app,
                 []() { QCoreApplication::exit(EXIT_FAILURE); }, Qt::QueuedConnection);
engine.loadFromModule(u"subscription"_s, u"Main"_s);
return app.exec();
```

`main` is embedded by explicit state passing over a state `Framework` that holds
what the framework remembers between the calls (the icon, the connections, the
list of posted events, the run-loop flags) and a trace of everything that was
observed.  The framework itself is not part of the repository: its operations are
modelled from the spec (an event queue served by the run loop, direct and queued
connections, `exit` and `exec`).  What the framework and the QML module decide on
their own is a parameter `Env` of the embedding, and every theorem quantifies
over it.
-/

namespace MqttSubscribe

/-! ## Data model -/

/-- Modelled from the spec: the `EXIT_FAILURE` macro of `<cstdlib>`, which
`main.cpp` uses and does not define.  The spec calls it "a fixed failure status"
and a "non-zero/failure status"; its value is 1 in glibc, musl, the BSD libcs and
the MSVC runtime. -/
def EXIT_FAILURE : Int := 1

/-- The two objects `main` creates: `app` (the `QApplication`) and `engine`
(the `QQmlApplicationEngine`). -/
inductive QObject where
  | app
  | engine
  deriving DecidableEq, Repr

/-- Signals of `QQmlApplicationEngine`.  `main` names `objectCreationFailed`;
`objectCreated` is the engine's other load-outcome signal, kept so that the
choice of signal in `connect` matters. -/
inductive Signal where
  | objectCreated
  | objectCreationFailed
  deriving DecidableEq, Repr

namespace Qt

/-- The last argument of `QObject::connect`.  A direct connection calls the slot
at the point of emission, a queued connection posts the call to the receiver's
event queue. -/
inductive ConnectionType where
  | DirectConnection
  | QueuedConnection
  deriving DecidableEq, Repr

end Qt

/-- A statement of a slot body.  The one lambda of `main.cpp` has the body
`QCoreApplication::exit(EXIT_FAILURE);`, a single `exit` statement. -/
inductive Action where
  | exit (returnCode : Int)
  deriving DecidableEq, Repr

/-- A slot (the functor passed to `connect`) is the list of its statements. -/
abbrev Slot := List Action

/-- The value `QIcon(fileName)`. -/
structure QIcon where
  fileName : String
  deriving DecidableEq, Repr

/-- One connection made by `QObject::connect(sender, signal, receiver, slot, type)`. -/
structure Connection where
  sender : QObject
  signal : Signal
  receiver : QObject
  slot : Slot
  type : Qt.ConnectionType
  deriving DecidableEq, Repr

/-- An entry of the posted-event list: a queued slot call waiting for the run
loop. -/
structure PostedEvent where
  receiver : QObject
  slot : Slot
  deriving DecidableEq, Repr

/-- What can be observed of a run, in the order it happens. -/
inductive Obs where
  | appConstructed (argc : Int) (argv : List String)
  | setWindowIcon (icon : QIcon)
  | engineConstructed
  | connect (c : Connection)
  | loadFromModule (uri typeName : String)
  | emitted (sender : QObject) (signal : Signal)
  | posted (e : PostedEvent)
  | slotInvoked (slot : Slot)
  | exitRequested (returnCode : Int)
  | execEntered
  | execReturned (returnCode : Int)
  deriving DecidableEq, Repr

/-- The part of a run that the source does not decide.
`load uri typeName` lists the signals the engine emits while
`loadFromModule(uri, typeName)` runs (a failed root-object creation emits
`objectCreationFailed`).  `loopResult` is what the run loop returns when it ends
on the framework's own account, with no exit requested by a slot of this
program; `none` stands for a run loop that never ends on its own. -/
structure Env where
  load : String → String → List Signal
  loopResult : Option Int

/-- State of the framework between two calls of `main`. -/
structure Framework where
  windowIcon : Option QIcon
  connections : List Connection
  postEventList : List PostedEvent
  inExec : Bool
  returnCode : Option Int
  trace : List Obs
  deriving DecidableEq, Repr

/-- The state at process start: nothing connected, nothing posted, no run loop. -/
def Framework.start : Framework :=
  { windowIcon := none, connections := [], postEventList := [], inExec := false,
    returnCode := none, trace := [] }

/-- Append an observation to the trace. -/
def Framework.log (st : Framework) (o : Obs) : Framework :=
  { st with trace := st.trace ++ [o] }

/-! ## Framework operations -/

/-- Modelled from the spec: `QCoreApplication::exit(returnCode)`, a framework
function.  It "requests application exit with a failure status": the run loop
stops and `exec()` returns `returnCode`.  Outside a running run loop the request
has no effect. -/
def QCoreApplication.exit (st : Framework) (returnCode : Int) : Framework :=
  let st := st.log (Obs.exitRequested returnCode)
  if st.inExec then { st with returnCode := some returnCode } else st

/-- Execute one statement of a slot. -/
def runAction (st : Framework) : Action → Framework
  | Action.exit returnCode => QCoreApplication.exit st returnCode

/-- Call a slot: its statements run in order. -/
def invoke (st : Framework) (slot : Slot) : Framework :=
  slot.foldl runAction (st.log (Obs.slotInvoked slot))

/-- Modelled from the spec: delivery of an emitted signal to one connection, done
inside the framework.  Nothing happens when the connection is for another sender
or signal.  A direct connection calls the slot on the spot.  A queued connection
is "an asynchronous signal-delivery mode where the handler runs on the receiver's
own execution context at a later loop iteration, rather than synchronously at
signal-emission time": the call is put at the end of the posted-event list. -/
def deliver (sender : QObject) (signal : Signal) (st : Framework) (c : Connection) :
    Framework :=
  if c.sender = sender ∧ c.signal = signal then
    match c.type with
    | Qt.ConnectionType.DirectConnection => invoke st c.slot
    | Qt.ConnectionType.QueuedConnection =>
        let e : PostedEvent := ⟨c.receiver, c.slot⟩
        { st.log (Obs.posted e) with postEventList := st.postEventList ++ [e] }
  else st

/-- Modelled from the spec: emission of `signal` by `sender`, done inside the
framework.  Every connection made so far is served, in the order the connections
were made. -/
def emit (st : Framework) (sender : QObject) (signal : Signal) : Framework :=
  let st := st.log (Obs.emitted sender signal)
  st.connections.foldl (deliver sender signal) st

/-- Modelled from the spec: the framework constructor `QApplication app(argc, argv)`,
"application-object construction from process arguments". -/
def QApplication.ctor (st : Framework) (argc : Int) (argv : List String) : Framework :=
  st.log (Obs.appConstructed argc argv)

/-- Modelled from the spec: the framework function `app.setWindowIcon(icon)`, "a
resource-icon assignment". -/
def QApplication.setWindowIcon (st : Framework) (icon : QIcon) : Framework :=
  { st.log (Obs.setWindowIcon icon) with windowIcon := some icon }

/-- Modelled from the spec: the framework constructor `QQmlApplicationEngine engine`,
"declarative-engine construction". -/
def QQmlApplicationEngine.ctor (st : Framework) : Framework :=
  st.log Obs.engineConstructed

/-- Modelled from the spec: the framework function
`QObject::connect(sender, signal, receiver, slot, type)`, "registration of a single
event-driven callback".  The connection is added after the existing ones. -/
def QObject.connect (st : Framework) (sender : QObject) (signal : Signal)
    (receiver : QObject) (slot : Slot) (type : Qt.ConnectionType) : Framework :=
  let c : Connection := ⟨sender, signal, receiver, slot, type⟩
  { st.log (Obs.connect c) with connections := st.connections ++ [c] }

/-- Modelled from the spec: `engine.loadFromModule(uri, typeName)`, a framework
function that loads "a module/entry-point pair into the engine".  While it runs
the engine emits the signals the environment decides for this module and entry
point. -/
def QQmlApplicationEngine.loadFromModule (env : Env) (st : Framework)
    (uri typeName : String) : Framework :=
  (env.load uri typeName).foldl (fun s sig => emit s QObject.engine sig)
    (st.log (Obs.loadFromModule uri typeName))

/-- Modelled from the spec: one turn of the framework's run loop.  The events
posted so far are taken off the list and their slots are called in posting
order. -/
def processEvents (st : Framework) : Framework :=
  st.postEventList.foldl (fun s e => invoke s e.slot) { st with postEventList := [] }

/-- Modelled from the spec: `app.exec()`, the "framework's blocking run loop,
whose return value becomes the process exit code".  The loop starts with no exit
pending and runs a turn.  If a slot requested exit, `exec` returns the requested
code.  Otherwise nothing of this program is left to run and the loop ends when
the framework ends it, with the framework's value (`none`: it never returns). -/
def QApplication.exec (env : Env) (st : Framework) : Framework × Option Int :=
  let st := { st.log Obs.execEntered with inExec := true, returnCode := none }
  let st := processEvents st
  match st.returnCode with
  | some code => ({ st with inExec := false }.log (Obs.execReturned code), some code)
  | none =>
    match env.loopResult with
    | some code => ({ st with inExec := false }.log (Obs.execReturned code), some code)
    | none => (st, none)

/-! ## The program -/

/-- The function `main` of `main.cpp`, call by call.  The result is the final
framework state together with the value `main` returns (`none` when `exec`
never returns). -/
def main (env : Env) (argc : Int) (argv : List String) : Framework × Option Int :=
  let app := QApplication.ctor Framework.start argc argv
  let app := QApplication.setWindowIcon app (QIcon.mk ":/MJC.ico")
  let engine := QQmlApplicationEngine.ctor app
  let st := QObject.connect engine QObject.engine Signal.objectCreationFailed QObject.app
    [Action.exit EXIT_FAILURE] Qt.ConnectionType.QueuedConnection
  let st := QQmlApplicationEngine.loadFromModule env st "subscription" "Main"
  QApplication.exec env st

/-- A load that fails: the engine emits `objectCreated` (with no object) and
`objectCreationFailed`. -/
def failingLoad : String → String → List Signal :=
  fun _ _ => [Signal.objectCreated, Signal.objectCreationFailed]

/-- A load that succeeds: the engine emits `objectCreated`. -/
def succeedingLoad : String → String → List Signal :=
  fun _ _ => [Signal.objectCreated]

/-! ## Auxiliary definitions for the statements and proofs -/

/-- The connection `main` makes: the engine's `objectCreationFailed` to the lambda,
in the application's context, queued. -/
def failureConnection : Connection :=
  ⟨QObject.engine, Signal.objectCreationFailed, QObject.app,
    [Action.exit EXIT_FAILURE], Qt.ConnectionType.QueuedConnection⟩

/-- The posted event that one emission of `objectCreationFailed` leaves behind. -/
def failureEvent : PostedEvent := ⟨QObject.app, [Action.exit EXIT_FAILURE]⟩

/-- What the emissions of a load add to the trace when `failureConnection` is the
only connection: each emission, followed by the posting it causes. -/
def loadObs : List Signal → List Obs
  | [] => []
  | Signal.objectCreated :: rest =>
    Obs.emitted QObject.engine Signal.objectCreated :: loadObs rest
  | Signal.objectCreationFailed :: rest =>
    Obs.emitted QObject.engine Signal.objectCreationFailed :: Obs.posted failureEvent ::
      loadObs rest

/-- What `n` calls of the lambda inside the run loop add to the trace. -/
def callbackRuns : Nat → List Obs
  | 0 => []
  | n + 1 =>
    Obs.slotInvoked [Action.exit EXIT_FAILURE] :: Obs.exitRequested EXIT_FAILURE ::
      callbackRuns n

/-- What the return of `exec` adds to the trace. -/
def returnObs : Option Int → List Obs
  | some code => [Obs.execReturned code]
  | none => []

/-- Number of times the engine emits `objectCreationFailed` while `main` loads
the module. -/
def failures (env : Env) : Nat :=
  (env.load "subscription" "Main").count Signal.objectCreationFailed

/-- The value `exec` returns in `main`, in closed form. -/
def outcome (env : Env) : Option Int :=
  if failures env = 0 then env.loopResult else some EXIT_FAILURE

/-- The trace of `main` up to the entry into the run loop. -/
def traceBeforeExec (env : Env) (argc : Int) (argv : List String) : List Obs :=
  [Obs.appConstructed argc argv, Obs.setWindowIcon ⟨":/MJC.ico"⟩, Obs.engineConstructed,
    Obs.connect failureConnection, Obs.loadFromModule "subscription" "Main"] ++
  loadObs (env.load "subscription" "Main")

/-- The trace of `main` after the entry into the run loop. -/
def traceAfterExec (env : Env) : List Obs :=
  callbackRuns (failures env) ++ returnObs (outcome env)

/-- The calls issued by the body of `main`, as opposed to what the framework and
the slots do in between. -/
def Obs.isMainCall : Obs → Bool
  | Obs.appConstructed _ _ => true
  | Obs.setWindowIcon _ => true
  | Obs.engineConstructed => true
  | Obs.connect _ => true
  | Obs.loadFromModule _ _ => true
  | Obs.execEntered => true
  | _ => false

/-- Registration of a callback. -/
def Obs.isConnect : Obs → Bool
  | Obs.connect _ => true
  | _ => false

/-- A call of the module loader. -/
def Obs.isLoad : Obs → Bool
  | Obs.loadFromModule _ _ => true
  | _ => false

/-- The value `exec` returned according to a trace, if it returned. -/
def execResult : List Obs → Option Int
  | [] => none
  | Obs.execReturned code :: _ => some code
  | _ :: rest => execResult rest

/-! ## Lemmas on the framework operations -/

theorem emit_failureConnection (st : Framework) (sig : Signal)
    (h : st.connections = [failureConnection]) :
    emit st QObject.engine sig =
      { st with
        trace := st.trace ++ loadObs [sig]
        postEventList := st.postEventList ++
          List.replicate ([sig].count Signal.objectCreationFailed) failureEvent } := by
  cases sig <;>
    simp [emit, Framework.log, h, deliver, failureConnection, failureEvent, loadObs]

theorem loadObs_cons (sig : Signal) (sigs : List Signal) :
    loadObs (sig :: sigs) = loadObs [sig] ++ loadObs sigs := by
  cases sig <;> simp [loadObs]

theorem load_failureConnection (sigs : List Signal) (st : Framework)
    (h : st.connections = [failureConnection]) :
    sigs.foldl (fun s sig => emit s QObject.engine sig) st =
      { st with
        trace := st.trace ++ loadObs sigs
        postEventList := st.postEventList ++
          List.replicate (sigs.count Signal.objectCreationFailed) failureEvent } := by
  induction sigs generalizing st with
  | nil => simp [loadObs]
  | cons sig sigs ih =>
    rw [List.foldl_cons, emit_failureConnection st sig h, ih, loadObs_cons sig sigs]
    · cases sig <;> simp [List.replicate_succ]
    · exact h

theorem invoke_exit (st : Framework) (code : Int) (h : st.inExec = true) :
    invoke st [Action.exit code] =
      { st with
        trace := st.trace ++ [Obs.slotInvoked [Action.exit code], Obs.exitRequested code]
        returnCode := some code } := by
  simp [invoke, runAction, QCoreApplication.exit, Framework.log, h]

theorem process_failureEvents (n : Nat) (st : Framework) (h : st.inExec = true) :
    (List.replicate n failureEvent).foldl (fun s e => invoke s e.slot) st =
      { st with
        trace := st.trace ++ callbackRuns n
        returnCode := if n = 0 then st.returnCode else some EXIT_FAILURE } := by
  induction n generalizing st with
  | zero => simp [callbackRuns]
  | succ n ih =>
    rw [List.replicate_succ, List.foldl_cons]
    have hs : failureEvent.slot = [Action.exit EXIT_FAILURE] := rfl
    rw [hs, invoke_exit st EXIT_FAILURE h, ih]
    · by_cases hn : n = 0 <;> simp [hn, callbackRuns]
    · exact h

/-- The state in which `main` calls `exec`. -/
theorem state_before_exec (env : Env) (argc : Int) (argv : List String) :
    QQmlApplicationEngine.loadFromModule env
        (QObject.connect
          (QQmlApplicationEngine.ctor
            (QApplication.setWindowIcon (QApplication.ctor Framework.start argc argv)
              (QIcon.mk ":/MJC.ico")))
          QObject.engine Signal.objectCreationFailed QObject.app
          [Action.exit EXIT_FAILURE] Qt.ConnectionType.QueuedConnection)
        "subscription" "Main" =
      { windowIcon := some ⟨":/MJC.ico"⟩
        connections := [failureConnection]
        postEventList := List.replicate (failures env) failureEvent
        inExec := false
        returnCode := none
        trace := traceBeforeExec env argc argv } := by
  unfold QQmlApplicationEngine.loadFromModule
  rw [load_failureConnection]
  · simp [QObject.connect, QQmlApplicationEngine.ctor, QApplication.setWindowIcon,
      QApplication.ctor, Framework.start, Framework.log, failures, failureConnection,
      traceBeforeExec]
  · simp [QObject.connect, QQmlApplicationEngine.ctor, QApplication.setWindowIcon,
      QApplication.ctor, Framework.start, Framework.log, failureConnection]

/-- The value `main` returns: the failure status as soon as the failure signal
was emitted, the framework's own run-loop result otherwise. -/
theorem main_result (env : Env) (argc : Int) (argv : List String) :
    (main env argc argv).2 = outcome env := by
  unfold main
  simp only []
  rw [state_before_exec]
  unfold QApplication.exec processEvents
  simp only [Framework.log]
  rw [process_failureEvents _ _ rfl]
  unfold outcome
  by_cases hn : failures env = 0
  · simp only [hn, if_true]
    cases env.loopResult <;> rfl
  · simp only [hn, if_false]

/-- The whole trace of `main`: the fixed calls, the emissions of the load with
their postings, the entry into the run loop, one call of the lambda per posted
event, and the return of `exec` when it returns. -/
theorem main_trace (env : Env) (argc : Int) (argv : List String) :
    (main env argc argv).1.trace =
      traceBeforeExec env argc argv ++ Obs.execEntered :: traceAfterExec env := by
  unfold main
  simp only []
  rw [state_before_exec]
  unfold QApplication.exec processEvents
  simp only [Framework.log]
  rw [process_failureEvents _ _ rfl]
  unfold traceAfterExec outcome
  by_cases hn : failures env = 0
  · simp only [hn, if_true]
    cases env.loopResult <;> simp [returnObs]
  · simp [hn, returnObs]

/-- The connections and the icon at the end of `main`. -/
theorem main_state (env : Env) (argc : Int) (argv : List String) :
    (main env argc argv).1.connections = [failureConnection] ∧
      (main env argc argv).1.windowIcon = some ⟨":/MJC.ico"⟩ := by
  unfold main
  simp only []
  rw [state_before_exec]
  unfold QApplication.exec processEvents
  simp only [Framework.log]
  rw [process_failureEvents _ _ rfl]
  by_cases hn : failures env = 0
  · simp only [hn, if_true]
    cases env.loopResult <;> simp
  · simp [hn]

/-! ## Lemmas on the pieces of the trace -/

theorem emitted_mem_loadObs (o : QObject) (sig : Signal) (sigs : List Signal) :
    Obs.emitted o sig ∈ loadObs sigs ↔ o = QObject.engine ∧ sig ∈ sigs := by
  induction sigs with
  | nil => simp [loadObs]
  | cons s sigs ih =>
    cases s <;> simp [loadObs, ih] <;> tauto

theorem posted_mem_loadObs (e : PostedEvent) (sigs : List Signal) :
    Obs.posted e ∈ loadObs sigs ↔ e = failureEvent ∧ Signal.objectCreationFailed ∈ sigs := by
  induction sigs with
  | nil => simp [loadObs]
  | cons s sigs ih =>
    cases s
    · simp [loadObs, ih]
    · simp [loadObs, ih]
      tauto

theorem failures_eq_zero_iff (env : Env) :
    failures env = 0 ↔ Signal.objectCreationFailed ∉ env.load "subscription" "Main" := by
  unfold failures
  exact List.count_eq_zero

theorem mem_loadObs_cases (o : Obs) (sigs : List Signal) (h : o ∈ loadObs sigs) :
    (∃ sig, o = Obs.emitted QObject.engine sig) ∨ o = Obs.posted failureEvent := by
  induction sigs with
  | nil => simp [loadObs] at h
  | cons s sigs ih =>
    cases s
    · simp only [loadObs, List.mem_cons] at h
      rcases h with h | h
      · exact Or.inl ⟨_, h⟩
      · exact ih h
    · simp only [loadObs, List.mem_cons] at h
      rcases h with h | h | h
      · exact Or.inl ⟨_, h⟩
      · exact Or.inr h
      · exact ih h

theorem mem_callbackRuns (o : Obs) (n : Nat) :
    o ∈ callbackRuns n ↔
      n ≠ 0 ∧ (o = Obs.slotInvoked [Action.exit EXIT_FAILURE] ∨
        o = Obs.exitRequested EXIT_FAILURE) := by
  induction n with
  | zero => simp [callbackRuns]
  | succ n ih =>
    simp only [callbackRuns, List.mem_cons, ih]
    have : n + 1 ≠ 0 := Nat.succ_ne_zero n
    tauto

theorem mem_returnObs (o : Obs) (r : Option Int) :
    o ∈ returnObs r ↔ ∃ code, r = some code ∧ o = Obs.execReturned code := by
  cases r <;> simp [returnObs]

/-- Membership in the trace of `main`, piece by piece. -/
theorem mem_main_trace (env : Env) (argc : Int) (argv : List String) (o : Obs) :
    o ∈ (main env argc argv).1.trace ↔
      (o = Obs.appConstructed argc argv ∨ o = Obs.setWindowIcon ⟨":/MJC.ico"⟩ ∨
        o = Obs.engineConstructed ∨ o = Obs.connect failureConnection ∨
        o = Obs.loadFromModule "subscription" "Main") ∨
      o ∈ loadObs (env.load "subscription" "Main") ∨
      o = Obs.execEntered ∨
      o ∈ callbackRuns (failures env) ∨
      o ∈ returnObs (outcome env) := by
  rw [main_trace]
  simp only [traceBeforeExec, traceAfterExec, List.mem_append, List.mem_cons,
    List.mem_singleton, List.not_mem_nil, or_false]
  tauto

/-- The failure signal shows in the trace exactly when the load emits it. -/
theorem emitted_failed_iff (env : Env) (argc : Int) (argv : List String) :
    Obs.emitted QObject.engine Signal.objectCreationFailed ∈ (main env argc argv).1.trace ↔
      failures env ≠ 0 := by
  rw [mem_main_trace, Ne, failures_eq_zero_iff, not_not]
  simp [emitted_mem_loadObs, mem_callbackRuns, mem_returnObs]

theorem filter_isMainCall_loadObs (sigs : List Signal) :
    (loadObs sigs).filter Obs.isMainCall = [] := by
  induction sigs with
  | nil => rfl
  | cons s sigs ih => cases s <;> simp [loadObs, Obs.isMainCall, ih]

theorem filter_isMainCall_callbackRuns (n : Nat) :
    (callbackRuns n).filter Obs.isMainCall = [] := by
  induction n with
  | zero => rfl
  | succ n ih => simp [callbackRuns, Obs.isMainCall, ih]

theorem filter_isMainCall_returnObs (r : Option Int) :
    (returnObs r).filter Obs.isMainCall = [] := by
  cases r <;> simp [returnObs, Obs.isMainCall]

/-- The calls issued by the body of `main`, in order. -/
theorem main_calls (env : Env) (argc : Int) (argv : List String) :
    (main env argc argv).1.trace.filter Obs.isMainCall =
      [Obs.appConstructed argc argv, Obs.setWindowIcon ⟨":/MJC.ico"⟩,
        Obs.engineConstructed, Obs.connect failureConnection,
        Obs.loadFromModule "subscription" "Main", Obs.execEntered] := by
  rw [main_trace]
  simp [traceBeforeExec, traceAfterExec, List.filter_append, List.filter_cons,
    filter_isMainCall_loadObs, filter_isMainCall_callbackRuns,
    filter_isMainCall_returnObs, Obs.isMainCall]

theorem count_emitted_loadObs (sigs : List Signal) :
    (loadObs sigs).count (Obs.emitted QObject.engine Signal.objectCreationFailed) =
      sigs.count Signal.objectCreationFailed := by
  induction sigs with
  | nil => rfl
  | cons s sigs ih => cases s <;> simp [loadObs, List.count_cons, ih]

theorem count_slotInvoked_callbackRuns (n : Nat) :
    (callbackRuns n).count (Obs.slotInvoked [Action.exit EXIT_FAILURE]) = n := by
  induction n with
  | zero => rfl
  | succ n ih => simp [callbackRuns, List.count_cons, ih]

theorem count_exitRequested_callbackRuns (n : Nat) :
    (callbackRuns n).count (Obs.exitRequested EXIT_FAILURE) = n := by
  induction n with
  | zero => rfl
  | succ n ih => simp [callbackRuns, List.count_cons, ih]

/-- An observation that occurs in no piece of a list is counted zero times. -/
theorem count_eq_zero_of_not_mem (o : Obs) (l : List Obs) (h : o ∉ l) : l.count o = 0 :=
  List.count_eq_zero.mpr h

/-- The emissions of the failure signal in the trace of `main` are those of the
load. -/
theorem count_emitted_main (env : Env) (argc : Int) (argv : List String) :
    (main env argc argv).1.trace.count
        (Obs.emitted QObject.engine Signal.objectCreationFailed) = failures env := by
  rw [main_trace]
  have h1 : (callbackRuns (failures env)).count
      (Obs.emitted QObject.engine Signal.objectCreationFailed) = 0 :=
    count_eq_zero_of_not_mem _ _ (by simp [mem_callbackRuns])
  have h2 : (returnObs (outcome env)).count
      (Obs.emitted QObject.engine Signal.objectCreationFailed) = 0 :=
    count_eq_zero_of_not_mem _ _ (by simp [mem_returnObs])
  simp [traceBeforeExec, traceAfterExec, List.count_append, List.count_cons,
    count_emitted_loadObs, h1, h2]
  rfl

/-- The lambda is called once per emission of the failure signal. -/
theorem count_slotInvoked_main (env : Env) (argc : Int) (argv : List String) :
    (main env argc argv).1.trace.count
        (Obs.slotInvoked [Action.exit EXIT_FAILURE]) = failures env := by
  rw [main_trace]
  have h1 : (loadObs (env.load "subscription" "Main")).count
      (Obs.slotInvoked [Action.exit EXIT_FAILURE]) = 0 :=
    count_eq_zero_of_not_mem _ _ (fun h => by
      rcases mem_loadObs_cases _ _ h with ⟨sig, h⟩ | h <;> cases h)
  have h2 : (returnObs (outcome env)).count
      (Obs.slotInvoked [Action.exit EXIT_FAILURE]) = 0 :=
    count_eq_zero_of_not_mem _ _ (by simp [mem_returnObs])
  simp [traceBeforeExec, traceAfterExec, List.count_append, List.count_cons,
    count_slotInvoked_callbackRuns, h1, h2]

/-- Every call of the lambda issues one exit request. -/
theorem count_exitRequested_main (env : Env) (argc : Int) (argv : List String) :
    (main env argc argv).1.trace.count (Obs.exitRequested EXIT_FAILURE) = failures env := by
  rw [main_trace]
  have h1 : (loadObs (env.load "subscription" "Main")).count
      (Obs.exitRequested EXIT_FAILURE) = 0 :=
    count_eq_zero_of_not_mem _ _ (fun h => by
      rcases mem_loadObs_cases _ _ h with ⟨sig, h⟩ | h <;> cases h)
  have h2 : (returnObs (outcome env)).count (Obs.exitRequested EXIT_FAILURE) = 0 :=
    count_eq_zero_of_not_mem _ _ (by simp [mem_returnObs])
  simp [traceBeforeExec, traceAfterExec, List.count_append, List.count_cons,
    count_exitRequested_callbackRuns, h1, h2]

/-- The run loop is entered once. -/
theorem count_execEntered_main (env : Env) (argc : Int) (argv : List String) :
    (main env argc argv).1.trace.count Obs.execEntered = 1 := by
  rw [main_trace]
  have h1 : (loadObs (env.load "subscription" "Main")).count Obs.execEntered = 0 :=
    count_eq_zero_of_not_mem _ _ (fun h => by
      rcases mem_loadObs_cases _ _ h with ⟨sig, h⟩ | h <;> cases h)
  have h2 : (callbackRuns (failures env)).count Obs.execEntered = 0 :=
    count_eq_zero_of_not_mem _ _ (by simp [mem_callbackRuns])
  have h3 : (returnObs (outcome env)).count Obs.execEntered = 0 :=
    count_eq_zero_of_not_mem _ _ (by simp [mem_returnObs])
  simp [traceBeforeExec, traceAfterExec, List.count_append, List.count_cons, h1, h2, h3]

theorem execResult_append (l₁ l₂ : List Obs) (h : ∀ code, Obs.execReturned code ∉ l₁) :
    execResult (l₁ ++ l₂) = execResult l₂ := by
  induction l₁ with
  | nil => rfl
  | cons o l ih =>
    have hl : ∀ code, Obs.execReturned code ∉ l := fun code hc =>
      h code (List.mem_cons_of_mem _ hc)
    cases o with
    | execReturned code => exact absurd (List.mem_cons_self _ _) (h code)
    | _ => simpa [execResult] using ih hl

theorem execResult_returnObs (r : Option Int) : execResult (returnObs r) = r := by
  cases r <;> rfl

/-- The value `exec` returned according to the trace of `main`. -/
theorem execResult_main (env : Env) (argc : Int) (argv : List String) :
    execResult (main env argc argv).1.trace = outcome env := by
  rw [main_trace]
  have h : traceBeforeExec env argc argv ++ Obs.execEntered :: traceAfterExec env =
      (traceBeforeExec env argc argv ++ Obs.execEntered :: callbackRuns (failures env)) ++
        returnObs (outcome env) := by
    simp [traceAfterExec]
  rw [h, execResult_append, execResult_returnObs]
  intro code hc
  simp only [traceBeforeExec, List.mem_append, List.mem_cons, mem_callbackRuns] at hc
  rcases hc with (hc | hc) | hc | hc
  · simp at hc
  · rcases mem_loadObs_cases _ _ hc with ⟨sig, h⟩ | h <;> cases h
  · cases hc
  · rcases hc.2 with h | h <;> cases h

/-! ## The claims -/

/-- C1: in every run in which the engine emits `objectCreationFailed` while the
module is loaded, the queued lambda runs inside the run loop, `exec` returns the
code it passed to `exit`, and `main` returns that code: the process exit status is
`EXIT_FAILURE`, which is not zero.  This holds whatever the run loop would have
returned on its own, also when it would never have returned. -/
theorem main_failure_exit_status (env : Env) (argc : Int) (argv : List String)
    (h : Obs.emitted QObject.engine Signal.objectCreationFailed ∈
      (main env argc argv).1.trace) :
    (main env argc argv).2 = some EXIT_FAILURE ∧ EXIT_FAILURE ≠ 0 ∧
      Obs.execReturned EXIT_FAILURE ∈ (main env argc argv).1.trace := by
  have hn : failures env ≠ 0 := (emitted_failed_iff env argc argv).mp h
  have ho : outcome env = some EXIT_FAILURE := by simp [outcome, hn]
  refine ⟨by rw [main_result, ho], by decide, ?_⟩
  rw [mem_main_trace, ho]
  simp [returnObs]

/-- Witness of C1: a failing load under a run loop that would never end on its
own. -/
theorem main_failure_exit_status_witness :
    Obs.emitted QObject.engine Signal.objectCreationFailed ∈
        (main ⟨failingLoad, none⟩ 1 ["subscription"]).1.trace ∧
      ((main ⟨failingLoad, none⟩ 1 ["subscription"]).2 = some EXIT_FAILURE ∧
        EXIT_FAILURE ≠ 0 ∧
        Obs.execReturned EXIT_FAILURE ∈
          (main ⟨failingLoad, none⟩ 1 ["subscription"]).1.trace) :=
  ⟨by decide, main_failure_exit_status ⟨failingLoad, none⟩ 1 ["subscription"] (by decide)⟩

/-- C2: in every run in which the engine does not emit `objectCreationFailed`,
the value `main` returns is the value the run loop returns, whatever that value
is (and `main` does not return when the run loop does not). -/
theorem main_success_exit_code (env : Env) (argc : Int) (argv : List String)
    (h : Obs.emitted QObject.engine Signal.objectCreationFailed ∉
      (main env argc argv).1.trace) :
    (main env argc argv).2 = env.loopResult ∧
      execResult (main env argc argv).1.trace = env.loopResult := by
  have hn : failures env = 0 := by
    by_contra hc
    exact h ((emitted_failed_iff env argc argv).mpr hc)
  have ho : outcome env = env.loopResult := by simp [outcome, hn]
  exact ⟨by rw [main_result, ho], by rw [execResult_main, ho]⟩

/-- Witness of C2: a succeeding load under a run loop that returns 7. -/
theorem main_success_exit_code_witness :
    Obs.emitted QObject.engine Signal.objectCreationFailed ∉
        (main ⟨succeedingLoad, some 7⟩ 1 ["subscription"]).1.trace ∧
      ((main ⟨succeedingLoad, some 7⟩ 1 ["subscription"]).2 = some 7 ∧
        execResult (main ⟨succeedingLoad, some 7⟩ 1 ["subscription"]).1.trace = some 7) :=
  ⟨by decide, main_success_exit_code ⟨succeedingLoad, some 7⟩ 1 ["subscription"] (by decide)⟩

/-- C3: for every `argc`, `argv` and environment, the module loader is called
with the module identifier "subscription" and the entry point "Main" and with no
other pair, the window icon is set from the path ":/MJC.ico" and from no other,
and that icon is the application's icon when `main` ends. -/
theorem main_literal_arguments (env : Env) (argc : Int) (argv : List String) :
    (∀ uri typeName, Obs.loadFromModule uri typeName ∈ (main env argc argv).1.trace ↔
        uri = "subscription" ∧ typeName = "Main") ∧
      (∀ icon, Obs.setWindowIcon icon ∈ (main env argc argv).1.trace ↔
        icon = QIcon.mk ":/MJC.ico") ∧
      (main env argc argv).1.windowIcon = some (QIcon.mk ":/MJC.ico") := by
  refine ⟨fun uri typeName => ?_, fun icon => ?_, (main_state env argc argv).2⟩
  · rw [mem_main_trace]
    constructor
    · rintro (h | h | h | h | h)
      · simpa using h
      · rcases mem_loadObs_cases _ _ h with ⟨sig, h⟩ | h <;> cases h
      · cases h
      · rcases ((mem_callbackRuns _ _).mp h).2 with h | h <;> cases h
      · rcases (mem_returnObs _ _).mp h with ⟨code, -, h⟩
        cases h
    · rintro ⟨rfl, rfl⟩
      simp
  · rw [mem_main_trace]
    constructor
    · rintro (h | h | h | h | h)
      · simpa using h
      · rcases mem_loadObs_cases _ _ h with ⟨sig, h⟩ | h <;> cases h
      · cases h
      · rcases ((mem_callbackRuns _ _).mp h).2 with h | h <;> cases h
      · rcases (mem_returnObs _ _).mp h with ⟨code, -, h⟩
        cases h
    · rintro rfl
      simp

/-- C4: the trace of `main` splits at the entry into the run loop.  Before it no
slot is called and no exit is requested, also not at the emissions, which all lie
there; when `objectCreationFailed` is emitted, the call of the lambda is posted
before the run loop is entered and the lambda is called after it is entered. -/
theorem failure_callback_is_queued (env : Env) (argc : Int) (argv : List String) :
    ∃ pre post, (main env argc argv).1.trace = pre ++ Obs.execEntered :: post ∧
      Obs.execEntered ∉ pre ∧
      (∀ slot, Obs.slotInvoked slot ∉ pre) ∧
      (∀ code, Obs.exitRequested code ∉ pre) ∧
      (∀ sender sig, Obs.emitted sender sig ∉ post) ∧
      (Obs.emitted QObject.engine Signal.objectCreationFailed ∈
          (main env argc argv).1.trace →
        Obs.emitted QObject.engine Signal.objectCreationFailed ∈ pre ∧
        Obs.posted ⟨QObject.app, [Action.exit EXIT_FAILURE]⟩ ∈ pre ∧
        Obs.slotInvoked [Action.exit EXIT_FAILURE] ∈ post) := by
  have hpre : ∀ o, o ∈ traceBeforeExec env argc argv →
      (o = Obs.appConstructed argc argv ∨ o = Obs.setWindowIcon ⟨":/MJC.ico"⟩ ∨
        o = Obs.engineConstructed ∨ o = Obs.connect failureConnection ∨
        o = Obs.loadFromModule "subscription" "Main") ∨
      (∃ sig, o = Obs.emitted QObject.engine sig) ∨ o = Obs.posted failureEvent := by
    intro o ho
    simp only [traceBeforeExec, List.mem_append, List.mem_cons, List.not_mem_nil,
      or_false] at ho
    rcases ho with ho | ho
    · exact Or.inl ho
    · exact Or.inr (mem_loadObs_cases _ _ ho)
  refine ⟨traceBeforeExec env argc argv, traceAfterExec env, main_trace env argc argv,
    ?_, ?_, ?_, ?_, ?_⟩
  · intro h
    rcases hpre _ h with (h | h | h | h | h) | ⟨sig, h⟩ | h <;> cases h
  · intro slot h
    rcases hpre _ h with (h | h | h | h | h) | ⟨sig, h⟩ | h <;> cases h
  · intro code h
    rcases hpre _ h with (h | h | h | h | h) | ⟨sig, h⟩ | h <;> cases h
  · intro sender sig h
    simp only [traceAfterExec, List.mem_append, mem_callbackRuns, mem_returnObs] at h
    rcases h with ⟨-, h | h⟩ | ⟨code, -, h⟩ <;> cases h
  · intro h
    have hn : failures env ≠ 0 := (emitted_failed_iff env argc argv).mp h
    have hm : Signal.objectCreationFailed ∈ env.load "subscription" "Main" := by
      by_contra hc
      exact hn ((failures_eq_zero_iff env).mpr hc)
    refine ⟨?_, ?_, ?_⟩
    · simp [traceBeforeExec, emitted_mem_loadObs, hm]
    · have : Obs.posted failureEvent ∈ loadObs (env.load "subscription" "Main") :=
        (posted_mem_loadObs _ _).mpr ⟨rfl, hm⟩
      simp only [traceBeforeExec, List.mem_append]
      exact Or.inr this
    · simp [traceAfterExec, mem_callbackRuns, hn]

/-- C5: for every `argc`, `argv` and environment the calls `main` issues are, in
this order: construction of the application from `(argc, argv)`, the window icon,
construction of the engine, registration of the lambda, the module load, entry
into the run loop; when `main` returns, the last thing that happened is the
return of `exec` with the value `main` returns.  The registration precedes the
load, and the lambda is called as many times as the failure signal is emitted:
no emission is missed. -/
theorem main_call_order (env : Env) (argc : Int) (argv : List String) :
    (main env argc argv).1.trace.filter Obs.isMainCall =
        [Obs.appConstructed argc argv,
          Obs.setWindowIcon (QIcon.mk ":/MJC.ico"),
          Obs.engineConstructed,
          Obs.connect ⟨QObject.engine, Signal.objectCreationFailed, QObject.app,
            [Action.exit EXIT_FAILURE], Qt.ConnectionType.QueuedConnection⟩,
          Obs.loadFromModule "subscription" "Main",
          Obs.execEntered] ∧
      (∀ code, (main env argc argv).2 = some code →
        (main env argc argv).1.trace.getLast? = some (Obs.execReturned code)) ∧
      (main env argc argv).1.trace.count (Obs.slotInvoked [Action.exit EXIT_FAILURE]) =
        (main env argc argv).1.trace.count
          (Obs.emitted QObject.engine Signal.objectCreationFailed) := by
  refine ⟨main_calls env argc argv, ?_, ?_⟩
  · intro code h
    rw [main_result] at h
    rw [main_trace, traceAfterExec, h]
    have : traceBeforeExec env argc argv ++
        Obs.execEntered :: (callbackRuns (failures env) ++ returnObs (some code)) =
        (traceBeforeExec env argc argv ++ Obs.execEntered :: callbackRuns (failures env)) ++
          [Obs.execReturned code] := by
      simp [returnObs]
    rw [this, List.getLast?_concat]
  · rw [count_slotInvoked_main, count_emitted_main]

/-- C6: any two runs of `main`, whatever their arguments and whatever the load
does, issue the same calls in the same order apart from the `(argc, argv)` given
to the application constructor, which comes first; each run registers one
callback, calls the module loader once and enters the run loop once. -/
theorem main_fixed_sequence (env₁ env₂ : Env) (argc₁ argc₂ : Int)
    (argv₁ argv₂ : List String) :
    ((main env₁ argc₁ argv₁).1.trace.filter Obs.isMainCall).tail =
        ((main env₂ argc₂ argv₂).1.trace.filter Obs.isMainCall).tail ∧
      ((main env₁ argc₁ argv₁).1.trace.filter Obs.isMainCall).head? =
        some (Obs.appConstructed argc₁ argv₁) ∧
      ((main env₂ argc₂ argv₂).1.trace.filter Obs.isMainCall).head? =
        some (Obs.appConstructed argc₂ argv₂) ∧
      (main env₁ argc₁ argv₁).1.trace.countP Obs.isConnect = 1 ∧
      (main env₁ argc₁ argv₁).1.trace.countP Obs.isLoad = 1 ∧
      (main env₁ argc₁ argv₁).1.trace.count Obs.execEntered = 1 := by
  have hsub : ∀ (p : Obs → Bool), (∀ o, p o = true → Obs.isMainCall o = true) →
      (main env₁ argc₁ argv₁).1.trace.countP p =
        ((main env₁ argc₁ argv₁).1.trace.filter Obs.isMainCall).countP p := by
    intro p hp
    rw [List.countP_filter]
    apply List.countP_congr
    intro o _
    constructor
    · intro h
      simp [h, hp o h]
    · intro h
      simp only [Bool.and_eq_true, decide_eq_true_eq] at h
      simpa using h.1
  refine ⟨by rw [main_calls, main_calls]; rfl, by rw [main_calls]; rfl,
    by rw [main_calls]; rfl, ?_, ?_, ?_⟩
  · rw [hsub Obs.isConnect (by intro o h; cases o <;> first | rfl | cases h),
      main_calls]
    rfl
  · rw [hsub Obs.isLoad (by intro o h; cases o <;> first | rfl | cases h),
      main_calls]
    rfl
  · exact count_execEntered_main env₁ argc₁ argv₁

/-- C7: the one connection `main` makes is the engine's `objectCreationFailed` to
a lambda whose body is the single statement `exit(EXIT_FAILURE)`; every slot called
in a run is that lambda; every exit request of a run carries `EXIT_FAILURE`, and
there is one per call of the lambda; an exit request is in the trace exactly when
`objectCreationFailed` was emitted, so a run without the signal has none. -/
theorem single_error_path (env : Env) (argc : Int) (argv : List String) :
    (main env argc argv).1.connections =
        [⟨QObject.engine, Signal.objectCreationFailed, QObject.app,
          [Action.exit EXIT_FAILURE], Qt.ConnectionType.QueuedConnection⟩] ∧
      (∀ slot, Obs.slotInvoked slot ∈ (main env argc argv).1.trace →
        slot = [Action.exit EXIT_FAILURE]) ∧
      (∀ code, Obs.exitRequested code ∈ (main env argc argv).1.trace →
        code = EXIT_FAILURE) ∧
      (main env argc argv).1.trace.count (Obs.exitRequested EXIT_FAILURE) =
        (main env argc argv).1.trace.count (Obs.slotInvoked [Action.exit EXIT_FAILURE]) ∧
      (Obs.exitRequested EXIT_FAILURE ∈ (main env argc argv).1.trace ↔
        Obs.emitted QObject.engine Signal.objectCreationFailed ∈
          (main env argc argv).1.trace) ∧
      (Obs.emitted QObject.engine Signal.objectCreationFailed ∉
          (main env argc argv).1.trace →
        ∀ code, Obs.exitRequested code ∉ (main env argc argv).1.trace) := by
  have hreq : ∀ code, Obs.exitRequested code ∈ (main env argc argv).1.trace →
      code = EXIT_FAILURE ∧ failures env ≠ 0 := by
    intro code h
    rw [mem_main_trace] at h
    rcases h with h | h | h | h | h
    · simp at h
    · rcases mem_loadObs_cases _ _ h with ⟨sig, h⟩ | h <;> cases h
    · cases h
    · rcases (mem_callbackRuns _ _).mp h with ⟨hn, h | h⟩
      · cases h
      · injection h with h
        exact ⟨h, hn⟩
    · rcases (mem_returnObs _ _).mp h with ⟨c, -, h⟩
      cases h
  refine ⟨(main_state env argc argv).1, ?_, fun code h => (hreq code h).1, ?_, ?_, ?_⟩
  · intro slot h
    rw [mem_main_trace] at h
    rcases h with h | h | h | h | h
    · simp at h
    · rcases mem_loadObs_cases _ _ h with ⟨sig, h⟩ | h <;> cases h
    · cases h
    · rcases (mem_callbackRuns _ _).mp h with ⟨-, h | h⟩
      · injection h with h
      · cases h
    · rcases (mem_returnObs _ _).mp h with ⟨c, -, h⟩
      cases h
  · rw [count_exitRequested_main, count_slotInvoked_main]
  · rw [emitted_failed_iff]
    constructor
    · intro h
      exact (hreq _ h).2
    · intro hn
      rw [mem_main_trace]
      simp [mem_callbackRuns, hn]
  · intro h code hc
    exact h ((emitted_failed_iff env argc argv).mpr (hreq code hc).2)

/-- C8: in every run, with or without the failure signal, the value `main`
returns is the value `exec` returned: `exec` returned a code exactly when `main`
returns that code, and in the failure run the failure status is the value `exec`
returned. -/
theorem main_returns_exec_result (env : Env) (argc : Int) (argv : List String) :
    (main env argc argv).2 = execResult (main env argc argv).1.trace ∧
      (∀ code, Obs.execReturned code ∈ (main env argc argv).1.trace ↔
        (main env argc argv).2 = some code) ∧
      (Obs.emitted QObject.engine Signal.objectCreationFailed ∈
          (main env argc argv).1.trace →
        execResult (main env argc argv).1.trace = some EXIT_FAILURE) := by
  refine ⟨by rw [main_result, execResult_main], fun code => ?_, fun h => ?_⟩
  · rw [main_result, mem_main_trace]
    constructor
    · rintro (h | h | h | h | h)
      · simp at h
      · rcases mem_loadObs_cases _ _ h with ⟨sig, h⟩ | h <;> cases h
      · cases h
      · rcases ((mem_callbackRuns _ _).mp h).2 with h | h <;> cases h
      · rcases (mem_returnObs _ _).mp h with ⟨c, hc, h⟩
        injection h with h
        rw [hc, h]
    · intro h
      simp [mem_returnObs, h]
  · have hn : failures env ≠ 0 := (emitted_failed_iff env argc argv).mp h
    rw [execResult_main]
    simp [outcome, hn]

/-! ## A contrast -/

/-- The queued connection is what makes the failure status arrive.  The same calls
with a direct connection run the lambda inside the load, where no run loop is
running: the exit request is lost and `exec` returns the framework's own value. -/
theorem direct_connection_loses_exit :
    (QApplication.exec ⟨failingLoad, some 0⟩
      (QQmlApplicationEngine.loadFromModule ⟨failingLoad, some 0⟩
        (QObject.connect
          (QQmlApplicationEngine.ctor
            (QApplication.setWindowIcon (QApplication.ctor Framework.start 1 ["subscription"])
              (QIcon.mk ":/MJC.ico")))
          QObject.engine Signal.objectCreationFailed QObject.app
          [Action.exit EXIT_FAILURE] Qt.ConnectionType.DirectConnection)
        "subscription" "Main")).2 = some 0 := by
  decide

end MqttSubscribe
